import Mathlib

/-!
Verification of the XDP load balancer `src/ebpf/xdp_lb.c`.

The program is shallowly embedded: the packet buffer is a list of bytes
(`List Nat`, each entry one octet), the two BPF array maps are a total
function on `Fin 8` (`backends`, whose lookup succeeds exactly for keys
below `max_entries`) and an optional `__u32` (`backend_count` at key 0),
and `xdp_load_balancer` is a pure function from the map state and the
buffer to an XDP action, the possibly rewritten buffer, and the backend
index it computed (the value it logs), when control reaches selection.

Multi-byte fields (`h_proto`, `saddr`, `daddr`) live in the buffer in
network byte order; the `__u32` reads and writes of `saddr`/`daddr` are
modelled as the little-endian host view of those bytes, matching the
in-memory access the C program performs.
-/

namespace XdpLb

/-- `MAX_BACKENDS` from `xdp_lb.c`: capacity of the `backends` array map. -/
def MAX_BACKENDS : Nat := 8

/-- `struct backend`: IPv4 address (`__u32 ip`) and 6-byte MAC address
(`__u8 mac[6]`, modelled as a function from byte position to byte value). -/
structure Backend where
  ip : Nat
  mac : Fin 6 → Nat
deriving DecidableEq

/-- A stored backend's fields fit their C types (`__u32`, `__u8[6]`). -/
def Backend.wf (b : Backend) : Prop :=
  b.ip < 4294967296 ∧ ∀ i, b.mac i < 256

/-- The two BPF array maps of `xdp_lb.c`: `backends` (capacity
`MAX_BACKENDS = 8`) and `backend_count` (single `__u32` entry at key 0,
modelled as `Option Nat` because the program guards a failed lookup). -/
structure LBState where
  backends : Fin MAX_BACKENDS → Backend
  count : Option Nat

/-- Every stored backend is a well-formed map value. -/
def LBState.wf (st : LBState) : Prop :=
  ∀ i, (st.backends i).wf

/-- The `hash` function of `xdp_lb.c` (lines 76-84): xorshift/multiply
avalanche mix; the `__u32` multiplications wrap, hence the mod 2^32. -/
def hash (a : Nat) : Nat :=
  let a1 := a ^^^ (a >>> 16)
  let a2 := a1 * 0x7feb352d % 4294967296
  let a3 := a2 ^^^ (a2 >>> 15)
  let a4 := a3 * 0x846ca68b % 4294967296
  a4 ^^^ (a4 >>> 16)

/-- `eth->h_proto == __constant_htons(ETH_P_IP)`: `h_proto` occupies buffer
bytes 12-13 in network byte order, so the comparison holds exactly when
byte 12 is `0x08` and byte 13 is `0x00`. -/
def ethProtoIsIPv4 (buf : List Nat) : Bool :=
  buf.getD 12 0 == 0x08 && buf.getD 13 0 == 0x00

/-- `iph->saddr`: the `__u32` at bytes 26-29 (14-byte Ethernet header plus
IPv4 offset 12), as read by a little-endian host. -/
def srcAddr (buf : List Nat) : Nat :=
  buf.getD 26 0 + 256 * buf.getD 27 0 + 65536 * buf.getD 28 0 +
    16777216 * buf.getD 29 0

/-- `iph->daddr`: the `__u32` at bytes 30-33, as read by a little-endian
host. -/
def destAddr (buf : List Nat) : Nat :=
  buf.getD 30 0 + 256 * buf.getD 31 0 + 65536 * buf.getD 32 0 +
    16777216 * buf.getD 33 0

/-- `bpf_map_lookup_elem(&backends, &idx)`: a BPF `ARRAY` map lookup
returns the stored value exactly when the key is below `max_entries`. -/
def backendLookup (st : LBState) (idx : Nat) : Option Backend :=
  if h : idx < MAX_BACKENDS then some (st.backends ⟨idx, h⟩) else none

/-- `iph->daddr = b->ip`: store the `__u32` at bytes 30-33 (little-endian
host byte order). -/
def writeDaddr (buf : List Nat) (ip : Nat) : List Nat :=
  (((buf.set 30 (ip % 256)).set 31 (ip / 256 % 256)).set 32
      (ip / 65536 % 256)).set 33 (ip / 16777216 % 256)

/-- `__builtin_memcpy(eth->h_dest, b->mac, 6)`: store the six MAC bytes at
buffer positions 0-5. -/
def writeHDest (buf : List Nat) (m : Fin 6 → Nat) : List Nat :=
  (((((buf.set 0 (m 0)).set 1 (m 1)).set 2 (m 2)).set 3 (m 3)).set 4
      (m 4)).set 5 (m 5)

/-- XDP return codes reachable from the program text (`XDP_DROP` appears in
the action space but is never returned by this program). -/
inductive XdpAction where
  | XDP_PASS
  | XDP_TX
  | XDP_DROP
deriving DecidableEq

/-- One invocation's outcome: the return code, the (possibly rewritten)
buffer, and the backend index computed at line 147 when control reaches
backend selection (the program logs this value), `none` otherwise. -/
structure XdpResult where
  act : XdpAction
  out : List Nat
  idx : Option Nat
deriving DecidableEq

/-- `xdp_load_balancer` (lines 100-170): bounds-check the Ethernet header
(14 bytes), require the IPv4 ethertype, bounds-check the minimal IPv4
header (20 more bytes), read the active count, select
`hash(iph->saddr) % count`, look the backend up, and on success rewrite
`daddr` and `h_dest` in place and return `XDP_TX`. -/
def xdp_load_balancer (st : LBState) (buf : List Nat) : XdpResult :=
  if buf.length < 14 then ⟨.XDP_PASS, buf, none⟩
  else if ethProtoIsIPv4 buf = false then ⟨.XDP_PASS, buf, none⟩
  else if buf.length < 34 then ⟨.XDP_PASS, buf, none⟩
  else
    match st.count with
    | none => ⟨.XDP_PASS, buf, none⟩
    | some c =>
      if c = 0 then ⟨.XDP_PASS, buf, none⟩
      else
        let idx := hash (srcAddr buf) % c
        match backendLookup st idx with
        | none => ⟨.XDP_PASS, buf, some idx⟩
        | some b => ⟨.XDP_TX, writeHDest (writeDaddr buf b.ip) b.mac, some idx⟩

/-- The packet shape the program accepts: long enough for the Ethernet plus
minimal IPv4 headers, and carrying the IPv4 ethertype. -/
def wfPkt (buf : List Nat) : Prop :=
  34 ≤ buf.length ∧ ethProtoIsIPv4 buf = true

/-- Error outcome of the control-plane table replacement. -/
inductive ReplaceError where
  | CapacityExceeded
deriving DecidableEq

/-- Modelled from the spec: `BackendTable.replace` belongs to the user-space
control plane, which is not part of `src/`; only the maps it writes
(`backends`, `backend_count`) are declared there.  Per the spec it
"atomically installs a new table; fails with `CapacityExceeded` if
`entries.length > 8`; on success sets `activeCount = entries.length`", and
a failed replace leaves the table unchanged. -/
def replace (st : LBState) (entries : List Backend) :
    Except ReplaceError Unit × LBState :=
  if 8 < entries.length then (.error .CapacityExceeded, st)
  else
    (.ok (),
      { backends := fun i =>
          if h : i.val < entries.length then entries.get ⟨i.val, h⟩
          else st.backends i,
        count := some entries.length })

/-! ### Concrete states and buffers used by witnesses -/

/-- A concrete backend value. -/
def bAA : Backend := ⟨0x0a000001, fun _ => 0xAA⟩

/-- A 34-byte IPv4 frame: ethertype `0x0800` at bytes 12-13, source address
bytes 26-29 = `[1,0,0,0]` (so `srcAddr = 1`), destination bytes 30-33 =
`[2,0,0,0]`. -/
def buf0 : List Nat :=
  [0, 0, 0, 0, 0, 0, 0, 0, 0, 0, 0, 0, 8, 0,
   69, 0, 0, 20, 0, 0, 0, 0, 64, 6, 0, 0, 1, 0, 0, 0, 2, 0, 0, 0]

/-- A state with one configured backend. -/
def st0 : LBState := ⟨fun _ => bAA, some 1⟩

/-- A state whose stored count (100) exceeds the map capacity of 8. -/
def st100 : LBState := ⟨fun _ => bAA, some 100⟩

/-! ### Characterization lemmas for the control flow of `xdp_load_balancer` -/

/-- A buffer failing any of the three header checks is passed unchanged. -/
theorem xdp_malformed (st : LBState) (buf : List Nat)
    (h : buf.length < 14 ∨ ethProtoIsIPv4 buf = false ∨ buf.length < 34) :
    xdp_load_balancer st buf = ⟨.XDP_PASS, buf, none⟩ := by
  unfold xdp_load_balancer
  by_cases h14 : buf.length < 14
  · simp [h14]
  · rw [if_neg h14]
    by_cases hp : ethProtoIsIPv4 buf = false
    · simp [hp]
    · rw [if_neg hp]
      have h34 : buf.length < 34 := by
        rcases h with h | h | h
        · exact absurd h h14
        · exact absurd h hp
        · exact h
      simp [h34]

/-- With a well-formed packet and an absent count entry, the program passes
the buffer unchanged. -/
theorem xdp_count_none (st : LBState) (buf : List Nat)
    (hbuf : wfPkt buf) (hc : st.count = none) :
    xdp_load_balancer st buf = ⟨.XDP_PASS, buf, none⟩ := by
  obtain ⟨h34, hp⟩ := hbuf
  unfold xdp_load_balancer
  rw [if_neg (by omega), if_neg (by simp [hp]), if_neg (by omega), hc]

/-- With a well-formed packet and a zero count, the program passes the
buffer unchanged. -/
theorem xdp_count_zero (st : LBState) (buf : List Nat)
    (hbuf : wfPkt buf) (hc : st.count = some 0) :
    xdp_load_balancer st buf = ⟨.XDP_PASS, buf, none⟩ := by
  obtain ⟨h34, hp⟩ := hbuf
  unfold xdp_load_balancer
  rw [if_neg (by omega), if_neg (by simp [hp]), if_neg (by omega), hc]
  simp

/-- With a well-formed packet and a nonzero count, the program computes the
index `hash(saddr) % count` and branches on the backend lookup. -/
theorem xdp_sel (st : LBState) (buf : List Nat) (c : Nat)
    (hbuf : wfPkt buf) (hc : st.count = some c) (hc0 : c ≠ 0) :
    xdp_load_balancer st buf =
      match backendLookup st (hash (srcAddr buf) % c) with
      | none => ⟨.XDP_PASS, buf, some (hash (srcAddr buf) % c)⟩
      | some b => ⟨.XDP_TX, writeHDest (writeDaddr buf b.ip) b.mac,
          some (hash (srcAddr buf) % c)⟩ := by
  obtain ⟨h34, hp⟩ := hbuf
  unfold xdp_load_balancer
  rw [if_neg (by omega), if_neg (by simp [hp]), if_neg (by omega), hc]
  simp [hc0]

/-! ### Algebra of the `hash` mixing steps -/

/-- One xorshift step `a ^= a >> k` of `hash`. -/
def xs (k a : Nat) : Nat := a ^^^ (a >>> k)

/-- One wrapping `__u32` multiplication step `a *= c` of `hash`. -/
def mul32 (c a : Nat) : Nat := a * c % 4294967296

/-- `hash` is the composition of its five steps. -/
theorem hash_eq_steps (a : Nat) :
    hash a = xs 16 (mul32 0x846ca68b (xs 15 (mul32 0x7feb352d (xs 16 a)))) :=
  rfl

/-- Inverse of the xorshift-by-15 step on 32-bit values. -/
def sx15 (y : Nat) : Nat := (y ^^^ (y >>> 15)) ^^^ (y >>> 30)

/-- An xorshift step keeps 32-bit values 32-bit. -/
theorem xs_lt (k : Nat) {a : Nat} (ha : a < 4294967296) :
    xs k a < 4294967296 := by
  have hsh : a >>> k ≤ a := by
    rw [Nat.shiftRight_eq_div_pow]
    exact Nat.div_le_self _ _
  have h32 : (4294967296 : Nat) = 2 ^ 32 := by norm_num
  rw [h32] at ha ⊢
  exact Nat.xor_lt_two_pow ha (lt_of_le_of_lt hsh ha)

/-- A wrapping multiplication step lands below 2^32. -/
theorem mul32_lt (c a : Nat) : mul32 c a < 4294967296 :=
  Nat.mod_lt _ (by norm_num)

/-- The xorshift-by-16 step is its own inverse on 32-bit values. -/
theorem xs16_inv {a : Nat} (ha : a < 4294967296) : xs 16 (xs 16 a) = a := by
  unfold xs
  apply Nat.eq_of_testBit_eq
  intro i
  simp only [Nat.testBit_xor, Nat.testBit_shiftRight]
  have hfar : a.testBit (16 + (16 + i)) = false := by
    apply Nat.testBit_lt_two_pow
    calc a < 4294967296 := ha
      _ = 2 ^ 32 := by norm_num
      _ ≤ 2 ^ (16 + (16 + i)) := Nat.pow_le_pow_right (by norm_num) (by omega)
  rw [hfar]
  cases a.testBit i <;> cases a.testBit (16 + i) <;> rfl

/-- `sx15` inverts the xorshift-by-15 step on 32-bit values. -/
theorem sx15_xs15 {a : Nat} (ha : a < 4294967296) : sx15 (xs 15 a) = a := by
  unfold sx15 xs
  apply Nat.eq_of_testBit_eq
  intro i
  simp only [Nat.testBit_xor, Nat.testBit_shiftRight]
  have e1 : 15 + (15 + i) = 30 + i := by omega
  have hfar : a.testBit (15 + (30 + i)) = false := by
    apply Nat.testBit_lt_two_pow
    calc a < 4294967296 := ha
      _ = 2 ^ 32 := by norm_num
      _ ≤ 2 ^ (15 + (30 + i)) := Nat.pow_le_pow_right (by norm_num) (by omega)
  rw [e1, hfar]
  cases a.testBit i <;> cases a.testBit (15 + i) <;>
    cases a.testBit (30 + i) <;> rfl

/-- Multiplying by the modular inverse undoes a wrapping multiplication. -/
theorem mul32_inv {c cinv : Nat} (hc : c * cinv % 4294967296 = 1)
    {a : Nat} (ha : a < 4294967296) : mul32 cinv (mul32 c a) = a := by
  unfold mul32
  calc a * c % 4294967296 * cinv % 4294967296
      = a * c * cinv % 4294967296 := Nat.mod_mul_mod
    _ = a * (c * cinv) % 4294967296 := by rw [Nat.mul_assoc]
    _ = a % 4294967296 * (c * cinv % 4294967296) % 4294967296 :=
        Nat.mul_mod _ _ _
    _ = a % 4294967296 * 1 % 4294967296 := by rw [hc]
    _ = a := by omega

/-- Explicit inverse of `hash` on 32-bit values; `0x1d69e2a5` and
`0x43021123` are the multiplicative inverses of `0x7feb352d` and
`0x846ca68b` modulo 2^32. -/
def unhash (y : Nat) : Nat :=
  xs 16 (mul32 0x1d69e2a5 (sx15 (mul32 0x43021123 (xs 16 y))))

/-- `unhash` is a left inverse of `hash` on 32-bit inputs. -/
theorem unhash_hash {a : Nat} (ha : a < 4294967296) :
    unhash (hash a) = a := by
  have h1 : xs 16 a < 4294967296 := xs_lt 16 ha
  have h2 : mul32 0x7feb352d (xs 16 a) < 4294967296 := mul32_lt _ _
  have h3 : xs 15 (mul32 0x7feb352d (xs 16 a)) < 4294967296 := xs_lt 15 h2
  have h4 : mul32 0x846ca68b (xs 15 (mul32 0x7feb352d (xs 16 a))) <
      4294967296 := mul32_lt _ _
  rw [hash_eq_steps]
  unfold unhash
  rw [xs16_inv h4, mul32_inv (by norm_num) h3, sx15_xs15 h2,
    mul32_inv (by norm_num) h1]
  exact xs16_inv ha

/-! ### Byte-level lemmas about the in-place writes -/

/-- Setting position `i` leaves any other position `j` unchanged. -/
theorem getD_set_ne {l : List Nat} (i j v : Nat) (h : i ≠ j) :
    (l.set i v).getD j 0 = l.getD j 0 := by
  simp [List.getD_eq_getElem?_getD, List.getElem?_set_ne h]

/-- Setting an in-bounds position `i` makes position `i` read back `v`. -/
theorem getD_set_self {l : List Nat} (i v : Nat)
    (h : i < l.length) : (l.set i v).getD i 0 = v := by
  simp [List.getD_eq_getElem?_getD, List.getElem?_set_self h]

/-- `writeDaddr` touches only bytes 30-33. -/
theorem writeDaddr_getD_outside (buf : List Nat) (ip : Nat) {j : Nat}
    (hj : j < 30 ∨ 34 ≤ j) :
    (writeDaddr buf ip).getD j 0 = buf.getD j 0 := by
  unfold writeDaddr
  rw [getD_set_ne 33 j _ (by omega), getD_set_ne 32 j _ (by omega),
    getD_set_ne 31 j _ (by omega), getD_set_ne 30 j _ (by omega)]

/-- `writeHDest` touches only bytes 0-5. -/
theorem writeHDest_getD_ge (buf : List Nat) (m : Fin 6 → Nat) {j : Nat}
    (hj : 6 ≤ j) : (writeHDest buf m).getD j 0 = buf.getD j 0 := by
  unfold writeHDest
  rw [getD_set_ne 5 j _ (by omega), getD_set_ne 4 j _ (by omega),
    getD_set_ne 3 j _ (by omega), getD_set_ne 2 j _ (by omega),
    getD_set_ne 1 j _ (by omega), getD_set_ne 0 j _ (by omega)]

/-- After `writeDaddr`, bytes 30-33 decode back to the stored `__u32`. -/
theorem writeDaddr_destAddr (buf : List Nat) (ip : Nat)
    (h : 34 ≤ buf.length) (hip : ip < 4294967296) :
    destAddr (writeDaddr buf ip) = ip := by
  have h33 : (writeDaddr buf ip).getD 33 0 = ip / 16777216 % 256 := by
    unfold writeDaddr
    exact getD_set_self 33 _ (by simp only [List.length_set]; omega)
  have h32 : (writeDaddr buf ip).getD 32 0 = ip / 65536 % 256 := by
    unfold writeDaddr
    rw [getD_set_ne 33 32 _ (by decide)]
    exact getD_set_self 32 _ (by simp only [List.length_set]; omega)
  have h31 : (writeDaddr buf ip).getD 31 0 = ip / 256 % 256 := by
    unfold writeDaddr
    rw [getD_set_ne 33 31 _ (by decide), getD_set_ne 32 31 _ (by decide)]
    exact getD_set_self 31 _ (by simp only [List.length_set]; omega)
  have h30 : (writeDaddr buf ip).getD 30 0 = ip % 256 := by
    unfold writeDaddr
    rw [getD_set_ne 33 30 _ (by decide), getD_set_ne 32 30 _ (by decide),
      getD_set_ne 31 30 _ (by decide)]
    exact getD_set_self 30 _ (by omega)
  unfold destAddr
  rw [h30, h31, h32, h33]
  omega

/-- After `writeHDest`, bytes 0-5 read back the six MAC bytes. -/
theorem writeHDest_getD_mac (buf : List Nat) (m : Fin 6 → Nat) (k : Fin 6)
    (h : 6 ≤ buf.length) : (writeHDest buf m).getD k.val 0 = m k := by
  have hb0 : (writeHDest buf m).getD 0 0 = m 0 := by
    unfold writeHDest
    rw [getD_set_ne 5 0 _ (by decide), getD_set_ne 4 0 _ (by decide),
      getD_set_ne 3 0 _ (by decide), getD_set_ne 2 0 _ (by decide),
      getD_set_ne 1 0 _ (by decide)]
    exact getD_set_self 0 _ (by omega)
  have hb1 : (writeHDest buf m).getD 1 0 = m 1 := by
    unfold writeHDest
    rw [getD_set_ne 5 1 _ (by decide), getD_set_ne 4 1 _ (by decide),
      getD_set_ne 3 1 _ (by decide), getD_set_ne 2 1 _ (by decide)]
    exact getD_set_self 1 _ (by simp only [List.length_set]; omega)
  have hb2 : (writeHDest buf m).getD 2 0 = m 2 := by
    unfold writeHDest
    rw [getD_set_ne 5 2 _ (by decide), getD_set_ne 4 2 _ (by decide),
      getD_set_ne 3 2 _ (by decide)]
    exact getD_set_self 2 _ (by simp only [List.length_set]; omega)
  have hb3 : (writeHDest buf m).getD 3 0 = m 3 := by
    unfold writeHDest
    rw [getD_set_ne 5 3 _ (by decide), getD_set_ne 4 3 _ (by decide)]
    exact getD_set_self 3 _ (by simp only [List.length_set]; omega)
  have hb4 : (writeHDest buf m).getD 4 0 = m 4 := by
    unfold writeHDest
    rw [getD_set_ne 5 4 _ (by decide)]
    exact getD_set_self 4 _ (by simp only [List.length_set]; omega)
  have hb5 : (writeHDest buf m).getD 5 0 = m 5 := by
    unfold writeHDest
    exact getD_set_self 5 _ (by simp only [List.length_set]; omega)
  rcases k with ⟨kv, hk⟩
  interval_cases kv
  · exact hb0
  · exact hb1
  · exact hb2
  · exact hb3
  · exact hb4
  · exact hb5

/-- The full rewrite leaves every byte outside the MAC field (0-5) and the
destination-address field (30-33) unchanged. -/
theorem rewrite_getD_other (buf : List Nat) (ip : Nat) (m : Fin 6 → Nat)
    {j : Nat} (hj : (6 ≤ j ∧ j < 30) ∨ 34 ≤ j) :
    (writeHDest (writeDaddr buf ip) m).getD j 0 = buf.getD j 0 := by
  rw [writeHDest_getD_ge _ _ (by omega),
    writeDaddr_getD_outside _ _ (by omega)]

/-- The rewrite preserves the buffer length. -/
theorem rewrite_length (buf : List Nat) (ip : Nat) (m : Fin 6 → Nat) :
    (writeHDest (writeDaddr buf ip) m).length = buf.length := by
  simp [writeHDest, writeDaddr]

/-- A value returned by `backendLookup` is a stored backend, so it is
well-formed whenever the state is. -/
theorem backendLookup_wf {st : LBState} {idx : Nat} {b : Backend}
    (hwf : st.wf) (h : backendLookup st idx = some b) : b.wf := by
  unfold backendLookup at h
  split at h
  · exact (Option.some.inj h) ▸ hwf _
  · exact Option.noConfusion h

/-! ### Claims -/

/-- C7: for every table state and every input buffer, `xdp_load_balancer`
returns `XDP_PASS` or `XDP_TX`; the reserved `XDP_DROP` code is never
returned, and the function is total, so no internal failure escapes. -/
theorem C7_no_drop (st : LBState) (buf : List Nat) :
    (xdp_load_balancer st buf).act = .XDP_PASS ∨
      (xdp_load_balancer st buf).act = .XDP_TX := by
  by_cases hm : buf.length < 14 ∨ ethProtoIsIPv4 buf = false ∨
      buf.length < 34
  · rw [xdp_malformed st buf hm]
    exact Or.inl rfl
  · have hbuf : wfPkt buf := by
      push_neg at hm
      refine ⟨by omega, ?_⟩
      rcases hq : ethProtoIsIPv4 buf with _ | _
      · exact absurd hq hm.2.1
      · rfl
    cases hc : st.count with
    | none => rw [xdp_count_none st buf hbuf hc]; exact Or.inl rfl
    | some c =>
      by_cases hc0 : c = 0
      · rw [hc0] at hc
        rw [xdp_count_zero st buf hbuf hc]
        exact Or.inl rfl
      · rw [xdp_sel st buf c hbuf hc hc0]
        cases backendLookup st (hash (srcAddr buf) % c) with
        | none => exact Or.inl rfl
        | some b => exact Or.inr rfl

/-- C2: any buffer shorter than an Ethernet header, or without the IPv4
ethertype, or shorter than the Ethernet plus minimal IPv4 headers, is
passed through byte-for-byte unchanged. -/
theorem C2_malformed_pass (st : LBState) (buf : List Nat)
    (h : buf.length < 14 ∨ ethProtoIsIPv4 buf = false ∨ buf.length < 34) :
    (xdp_load_balancer st buf).act = .XDP_PASS ∧
      (xdp_load_balancer st buf).out = buf := by
  rw [xdp_malformed st buf h]
  exact ⟨rfl, rfl⟩

/-- Witness for C2 at the empty buffer. -/
theorem C2_malformed_pass_witness :
    (xdp_load_balancer st0 []).act = .XDP_PASS ∧
      (xdp_load_balancer st0 []).out = [] :=
  C2_malformed_pass st0 [] (Or.inl (by decide))

/-- C4: for every well-formed IPv4 packet, when the stored backend count is
zero or the count entry is absent, the program returns `XDP_PASS` with the
buffer unchanged. -/
theorem C4_empty_table_pass (st : LBState) (buf : List Nat)
    (hbuf : wfPkt buf) (hc : st.count = none ∨ st.count = some 0) :
    (xdp_load_balancer st buf).act = .XDP_PASS ∧
      (xdp_load_balancer st buf).out = buf := by
  rcases hc with hc | hc
  · rw [xdp_count_none st buf hbuf hc]; exact ⟨rfl, rfl⟩
  · rw [xdp_count_zero st buf hbuf hc]; exact ⟨rfl, rfl⟩

/-- Witness for C4: the concrete IPv4 frame with a zero count. -/
theorem C4_empty_table_pass_witness :
    (xdp_load_balancer ⟨fun _ => bAA, some 0⟩ buf0).act = .XDP_PASS ∧
      (xdp_load_balancer ⟨fun _ => bAA, some 0⟩ buf0).out = buf0 :=
  C4_empty_table_pass ⟨fun _ => bAA, some 0⟩ buf0 (by constructor <;> decide)
    (Or.inr rfl)

/-- C3: for a well-formed packet and a fixed table with `count ≥ 1`, the
selected backend index is `hash(srcAddr) % count`, and two calls with the
same source address against the same table select the same index. -/
theorem C3_deterministic_selection (st : LBState) (buf1 buf2 : List Nat)
    (c : Nat) (h1 : wfPkt buf1) (h2 : wfPkt buf2) (hc : st.count = some c)
    (hc1 : 1 ≤ c) (hsrc : srcAddr buf1 = srcAddr buf2) :
    (xdp_load_balancer st buf1).idx = some (hash (srcAddr buf1) % c) ∧
      (xdp_load_balancer st buf1).idx = (xdp_load_balancer st buf2).idx := by
  have hc0 : c ≠ 0 := by omega
  have e1 := xdp_sel st buf1 c h1 hc hc0
  have e2 := xdp_sel st buf2 c h2 hc hc0
  rw [e1, e2, hsrc]
  cases backendLookup st (hash (srcAddr buf2) % c) <;> exact ⟨rfl, rfl⟩

/-- Witness for C3: the concrete frame against the one-backend table. -/
theorem C3_deterministic_selection_witness :
    (xdp_load_balancer st0 buf0).idx = some (hash (srcAddr buf0) % 1) ∧
      (xdp_load_balancer st0 buf0).idx = (xdp_load_balancer st0 buf0).idx :=
  C3_deterministic_selection st0 buf0 buf0 1 (by constructor <;> decide)
    (by constructor <;> decide) rfl (by decide) rfl

/-- C9: whatever the stored count (including counts above the capacity 8),
whenever the selected index `hash(srcAddr) % count` is 8 or larger the
backend-map lookup fails and the program returns `XDP_PASS` with the buffer
unchanged; no out-of-range map entry is ever read. -/
theorem C9_oob_index_pass (st : LBState) (buf : List Nat) (c : Nat)
    (hc : st.count = some c)
    (hge : MAX_BACKENDS ≤ hash (srcAddr buf) % c) :
    backendLookup st (hash (srcAddr buf) % c) = none ∧
      (xdp_load_balancer st buf).act = .XDP_PASS ∧
      (xdp_load_balancer st buf).out = buf := by
  have hnone : backendLookup st (hash (srcAddr buf) % c) = none := by
    unfold backendLookup
    rw [dif_neg (by omega)]
  refine ⟨hnone, ?_⟩
  by_cases hm : buf.length < 14 ∨ ethProtoIsIPv4 buf = false ∨
      buf.length < 34
  · rw [xdp_malformed st buf hm]; exact ⟨rfl, rfl⟩
  · have hbuf : wfPkt buf := by
      push_neg at hm
      refine ⟨by omega, ?_⟩
      rcases hq : ethProtoIsIPv4 buf with _ | _
      · exact absurd hq hm.2.1
      · rfl
    by_cases hc0 : c = 0
    · rw [xdp_count_zero st buf hbuf (hc0 ▸ hc)]; exact ⟨rfl, rfl⟩
    · rw [xdp_sel st buf c hbuf hc hc0, hnone]
      exact ⟨rfl, rfl⟩

/-- Witness for C9: count 100, source address 1, index
`hash 1 % 100 = 52 ≥ 8`, so the lookup fails and the frame passes. -/
theorem C9_oob_index_pass_witness :
    backendLookup st100 (hash (srcAddr buf0) % 100) = none ∧
      (xdp_load_balancer st100 buf0).act = .XDP_PASS ∧
      (xdp_load_balancer st100 buf0).out = buf0 :=
  C9_oob_index_pass st100 buf0 100 rfl (by decide)

/-- A state whose stored count is 3, below the map capacity. -/
def stC5 : LBState := ⟨fun _ => bAA, some 3⟩

/-- C5 as stated is false on the code: with an active count of 3, the
lookup at index 5 succeeds (a BPF `ARRAY` map lookup consults only
`max_entries = 8`, never `backend_count`), so "fails exactly when
`index ≥ activeCount`" does not hold. -/
theorem C5_counterexample :
    stC5.count = some 3 ∧ ¬ (backendLookup stC5 5 = none ↔ (3 : Nat) ≤ 5) := by
  refine ⟨rfl, ?_⟩
  intro h
  have h5 : backendLookup stC5 5 = none := h.mpr (by omega)
  simp [backendLookup, MAX_BACKENDS, stC5] at h5

/-- C5 (amended): the backend-map lookup fails exactly when the index
reaches the map capacity `MAX_BACKENDS = 8` (the active count plays no
part), and when the lookup of the selected index fails the program returns
`XDP_PASS` with the buffer unchanged. -/
theorem C5_amended_lookup_failure (st : LBState) (idx : Nat)
    (buf : List Nat) (c : Nat) (hbuf : wfPkt buf) (hc : st.count = some c)
    (hc0 : c ≠ 0)
    (hfail : backendLookup st (hash (srcAddr buf) % c) = none) :
    (backendLookup st idx = none ↔ MAX_BACKENDS ≤ idx) ∧
      (xdp_load_balancer st buf).act = .XDP_PASS ∧
      (xdp_load_balancer st buf).out = buf := by
  constructor
  · unfold backendLookup
    constructor
    · intro h
      by_contra hlt
      rw [dif_pos (by omega)] at h
      exact Option.noConfusion h
    · intro h
      rw [dif_neg (by omega)]
  · rw [xdp_sel st buf c hbuf hc hc0, hfail]
    exact ⟨rfl, rfl⟩

/-- Witness for the amended C5: count 100, selected index 52 ≥ 8, lookup
fails, frame passes. -/
theorem C5_amended_lookup_failure_witness :
    (backendLookup st100 52 = none ↔ MAX_BACKENDS ≤ 52) ∧
      (xdp_load_balancer st100 buf0).act = .XDP_PASS ∧
      (xdp_load_balancer st100 buf0).out = buf0 :=
  C5_amended_lookup_failure st100 52 buf0 100 (by constructor <;> decide)
    rfl (by decide) (by decide)

/-- C6: `replace` with more than 8 entries fails with `CapacityExceeded`
and leaves the table (entries and count) unchanged, never a partial
overwrite; a successful `replace` sets the active count to the length of
the installed sequence. -/
theorem C6_replace_atomic (st : LBState) (entries : List Backend) :
    (8 < entries.length →
        (replace st entries).1 = .error .CapacityExceeded ∧
          (replace st entries).2 = st) ∧
    (entries.length ≤ 8 →
        (replace st entries).1 = .ok () ∧
          (replace st entries).2.count = some entries.length) := by
  constructor
  · intro h
    unfold replace
    rw [if_pos h]
    exact ⟨rfl, rfl⟩
  · intro h
    unfold replace
    rw [if_neg (by omega)]
    exact ⟨rfl, rfl⟩

/-- C1: whenever the program returns `XDP_TX`, the output buffer's
destination-address field (bytes 30-33) decodes to the selected backend's
`ip`, its destination-MAC field (bytes 0-5) holds that backend's six MAC
bytes, and every other byte — including the IPv4 checksum at bytes 24-25 —
and the buffer length are unchanged. -/
theorem C1_rewrite_exact (st : LBState) (buf : List Nat) (hwf : st.wf)
    (htx : (xdp_load_balancer st buf).act = .XDP_TX) :
    ∃ c b, st.count = some c ∧ c ≠ 0 ∧
      backendLookup st (hash (srcAddr buf) % c) = some b ∧
      (xdp_load_balancer st buf).out.length = buf.length ∧
      destAddr (xdp_load_balancer st buf).out = b.ip ∧
      (∀ k : Fin 6, (xdp_load_balancer st buf).out.getD k.val 0 = b.mac k) ∧
      (∀ j, (6 ≤ j ∧ j < 30) ∨ 34 ≤ j →
        (xdp_load_balancer st buf).out.getD j 0 = buf.getD j 0) := by
  by_cases hm : buf.length < 14 ∨ ethProtoIsIPv4 buf = false ∨
      buf.length < 34
  · rw [xdp_malformed st buf hm] at htx
    exact absurd htx (by simp)
  have hbuf : wfPkt buf := by
    push_neg at hm
    refine ⟨by omega, ?_⟩
    rcases hq : ethProtoIsIPv4 buf with _ | _
    · exact absurd hq hm.2.1
    · rfl
  have h34 : 34 ≤ buf.length := hbuf.1
  cases hc : st.count with
  | none =>
    rw [xdp_count_none st buf hbuf hc] at htx
    exact absurd htx (by simp)
  | some c =>
    by_cases hc0 : c = 0
    · rw [xdp_count_zero st buf hbuf (hc0 ▸ hc)] at htx
      exact absurd htx (by simp)
    have hsel := xdp_sel st buf c hbuf hc hc0
    cases hb : backendLookup st (hash (srcAddr buf) % c) with
    | none =>
      rw [hsel, hb] at htx
      exact absurd htx (by simp)
    | some b =>
      rw [hb] at hsel
      refine ⟨c, b, rfl, hc0, hb, ?_, ?_, ?_, ?_⟩
      · rw [hsel]
        exact rewrite_length buf b.ip b.mac
      · rw [hsel]
        have hip : b.ip < 4294967296 := (backendLookup_wf hwf hb).1
        show destAddr (writeHDest (writeDaddr buf b.ip) b.mac) = b.ip
        unfold destAddr
        rw [writeHDest_getD_ge _ _ (by omega),
          writeHDest_getD_ge _ _ (by omega),
          writeHDest_getD_ge _ _ (by omega),
          writeHDest_getD_ge _ _ (by omega)]
        exact writeDaddr_destAddr buf b.ip h34 hip
      · intro k
        rw [hsel]
        exact writeHDest_getD_mac _ b.mac k (by simp [writeDaddr]; omega)
      · intro j hj
        rw [hsel]
        exact rewrite_getD_other buf b.ip b.mac hj

/-- Witness for C1: the concrete frame against the one-backend table, on
which the program returns `XDP_TX`. -/
theorem C1_rewrite_exact_witness :
    ∃ c b, st0.count = some c ∧ c ≠ 0 ∧
      backendLookup st0 (hash (srcAddr buf0) % c) = some b ∧
      (xdp_load_balancer st0 buf0).out.length = buf0.length ∧
      destAddr (xdp_load_balancer st0 buf0).out = b.ip ∧
      (∀ k : Fin 6,
        (xdp_load_balancer st0 buf0).out.getD k.val 0 = b.mac k) ∧
      (∀ j, (6 ≤ j ∧ j < 30) ∨ 34 ≤ j →
        (xdp_load_balancer st0 buf0).out.getD j 0 = buf0.getD j 0) :=
  C1_rewrite_exact st0 buf0
    (fun _ => (⟨by decide, by decide⟩ : bAA.wf)) (by decide)

/-- Witness for C6: a 9-entry replace fails leaving the table untouched; a
2-entry replace succeeds and sets the count to 2. -/
theorem C6_replace_atomic_witness :
    ((replace st0 (List.replicate 9 bAA)).1 = .error .CapacityExceeded ∧
        (replace st0 (List.replicate 9 bAA)).2 = st0) ∧
      ((replace st0 (List.replicate 2 bAA)).1 = .ok () ∧
        (replace st0 (List.replicate 2 bAA)).2.count =
          some (List.replicate 2 bAA).length) :=
  ⟨(C6_replace_atomic st0 (List.replicate 9 bAA)).1 (by simp),
   (C6_replace_atomic st0 (List.replicate 2 bAA)).2 (by simp)⟩

/-- C10: `hash` is injective on 32-bit inputs — each xorshift step and each
multiplication by an odd constant is invertible modulo 2^32 (`unhash`
composes the step inverses), so distinct 32-bit source addresses get
distinct digests; collisions can only come from the `% count` reduction. -/
theorem C10_hash_injective (a b : Nat) (ha : a < 4294967296)
    (hb : b < 4294967296) (h : hash a = hash b) : a = b := by
  rw [← unhash_hash ha, ← unhash_hash hb, h]

/-- Witness for C10 at the input pair (1, 1). -/
theorem C10_hash_injective_witness :
    (1 : Nat) < 4294967296 ∧ hash 1 = hash 1 ∧ (1 : Nat) = 1 :=
  ⟨by norm_num, rfl, C10_hash_injective 1 1 (by norm_num) (by norm_num) rfl⟩

end XdpLb
